import Mathlib

/-!
# Configuration resolution and backend channel management

A shallow embedding of `backend-go/internal/config/config.go` and
`backend-go/internal/rag/client.go`, together with the small parts of the Go
standard library (`os.LookupEnv`, `strconv.ParseInt`, `fmt.Sprintf`) and of
grpc-go (dial options, `NewClient`, `ClientConn.Close`) that these two files
call.

Go `int64`/`uint64` values are integers/naturals with explicit wrap-around
where the library code can overflow.  Go `(value, error)` results are pairs
whose second component is `none` for a nil error.
-/

/-- The process environment: each variable name is either unset (`none`) or
set to a string value, possibly the empty string (`some v`). -/
abbrev Environ := String → Option String

namespace os

/-- Go `os.LookupEnv`: the value and whether the variable is present.  An
unset variable gives the empty string and `false`. -/
def LookupEnv (env : Environ) (key : String) : String × Bool :=
  match env key with
  | some value => (value, true)
  | none => ("", false)

end os

namespace strconv

/-- The two causes carried by a Go `*strconv.NumError` that `ParseInt` with a
valid base and bit size can report. -/
inductive NumError where
  | ErrSyntax
  | ErrRange
  deriving DecidableEq, Repr

/-- The largest `uint64`. -/
def maxUint64 : Nat := 2 ^ 64 - 1

/-- Go `lower(c)`: `c | ('x' - 'X')` on a byte. -/
def lower (c : Nat) : Nat := c ||| 0x20

/-- The digit value the `switch` in the loop of `ParseUint` gives a byte `c`
when the base is not 0 (so `_` is not skipped), or `none` in its `default`
branch. -/
def digitOf (c : Nat) : Option Nat :=
  if 48 ≤ c ∧ c ≤ 57 then some (c - 48)
  else if 97 ≤ lower c ∧ lower c ≤ 122 then some (lower c - 97 + 10)
  else none

/-- The loop of Go `strconv.ParseUint` at `base = 10`, `bitSize = 64`, with
accumulator `n : uint64`.  `cutoff = maxUint64/10 + 1`, `maxVal = 1<<64 - 1`
(wrapping to `maxUint64`).  Go ranges over the bytes of the string; a character
outside ASCII is encoded by bytes `≥ 0x80`, the first of which takes the
`default` branch, as its code point does in `digitOf`. -/
def parseUintLoop : List Char → Nat → Nat × Option NumError
  | [], n => (n, none)
  | c :: cs, n =>
    match digitOf c.toNat with
    | none => (0, some .ErrSyntax)
    | some d =>
      if d ≥ 10 then (0, some .ErrSyntax)
      else if n ≥ maxUint64 / 10 + 1 then (maxUint64, some .ErrRange)
      else
        let n10 := (n * 10) % 2 ^ 64
        let n1 := (n10 + d) % 2 ^ 64
        if n1 < n10 ∨ n1 > maxUint64 then (maxUint64, some .ErrRange)
        else parseUintLoop cs n1

/-- Go `strconv.ParseUint(s, 10, 64)`. -/
def ParseUint (s : List Char) : Nat × Option NumError :=
  match s with
  | [] => (0, some .ErrSyntax)
  | _ => parseUintLoop s 0

/-- Go conversion `int64(u)` of a `uint64`. -/
def toInt64 (u : Nat) : Int :=
  if u % 2 ^ 64 < 2 ^ 63 then ((u % 2 ^ 64 : Nat) : Int) else ((u % 2 ^ 64 : Nat) : Int) - 2 ^ 64

/-- Go `-n` on an `int64` (two's complement, so `-(-2^63) = -2^63`). -/
def negInt64 (n : Int) : Int :=
  if n = -(2 ^ 63) then n else -n

/-- Go `strconv.ParseInt(s, 10, 64)`: an optional leading sign, then
`ParseUint`, then the range check against `cutoff = 1 << 63`. -/
def ParseInt (s : String) : Int × Option NumError :=
  match s.toList with
  | [] => (0, some .ErrSyntax)
  | c :: cs =>
    let neg := c == '-'
    let rest := if c == '+' then cs else if c == '-' then cs else c :: cs
    match ParseUint rest with
    | (_, some .ErrSyntax) => (0, some .ErrSyntax)
    | (un, _) =>
      if !neg && un ≥ 2 ^ 63 then (2 ^ 63 - 1, some .ErrRange)
      else if neg && un > 2 ^ 63 then (-(2 ^ 63), some .ErrRange)
      else
        let n := toInt64 un
        (if neg then negInt64 n else n, none)

end strconv

namespace config

/-- The Go struct `Config`. -/
structure Config where
  ApiServicePort : String
  AIServiceAddr : String
  MaxFileSize : Int
  deriving DecidableEq, Repr

/-- Go `getEnv`. -/
def getEnv (env : Environ) (key fallback : String) : String :=
  match os.LookupEnv env key with
  | (value, true) => value
  | (_, false) => fallback

/-- Go `getEnvAsInt64`. -/
def getEnvAsInt64 (env : Environ) (key : String) (fallback : Int) : Int :=
  match os.LookupEnv env key with
  | (valueStr, true) =>
    match strconv.ParseInt valueStr with
    | (value, none) => value
    | (_, some _) => fallback
  | (_, false) => fallback

/-- Go `getAIServiceAddr`; `fmt.Sprintf("%s:%s", host, port)` writes the two
strings with a colon between them. -/
def getAIServiceAddr (env : Environ) : String :=
  let host := getEnv env "AI_SERVICE_HOST" "localhost"
  let port := getEnv env "AI_SERVICE_PORT" "50051"
  host ++ ":" ++ port

/-- Go `LoadConfig`. -/
def LoadConfig (env : Environ) : Config :=
  { ApiServicePort := getEnv env "API_SERVICE_PORT" "8080"
    AIServiceAddr := getAIServiceAddr env
    MaxFileSize := getEnvAsInt64 env "MAX_FILE_SIZE" (10 * 1024 * 1024) }

end config

namespace time

/-- Go `time.Second` as a `time.Duration`, which counts nanoseconds. -/
def Second : Int := 1000000000

end time

/-- A Go `error` value. -/
structure GoError where
  msg : String
  deriving DecidableEq, Repr

namespace grpc

/-- Transport credentials a channel can be given; `insecure` is the value of
`insecure.NewCredentials()`. -/
inductive TransportCredentials where
  | insecure
  | tls
  deriving DecidableEq, Repr

/-- Go `keepalive.ClientParameters`. -/
structure ClientParameters where
  Time : Int
  Timeout : Int
  PermitWithoutStream : Bool
  deriving DecidableEq, Repr

/-- The call options the client uses. -/
inductive CallOption where
  | MaxCallRecvMsgSize (bytes : Int)
  | MaxCallSendMsgSize (bytes : Int)
  deriving DecidableEq, Repr

/-- The dial options the client uses. -/
inductive DialOption where
  | WithTransportCredentials (creds : TransportCredentials)
  | WithDefaultCallOptions (cos : List CallOption)
  | WithKeepaliveParams (kp : ClientParameters)
  deriving DecidableEq, Repr

/-- The part of grpc-go's `callInfo` the two size options write. -/
structure callInfo where
  maxReceiveMessageSize : Option Int
  maxSendMessageSize : Option Int
  deriving DecidableEq, Repr

/-- The part of grpc-go's `dialOptions` the three dial options write. -/
structure dialOptions where
  creds : Option TransportCredentials
  callOptions : List CallOption
  KeepaliveParams : ClientParameters
  deriving DecidableEq, Repr

/-- grpc-go's `internal.KeepaliveMinPingTime`. -/
def KeepaliveMinPingTime : Int := 10 * time.Second

/-- The effect of one dial option on `dialOptions`: credentials are stored,
call options appended, and keepalive parameters stored after raising a `Time`
below `KeepaliveMinPingTime` to it. -/
def DialOption.apply (o : dialOptions) : DialOption → dialOptions
  | .WithTransportCredentials creds => { o with creds := some creds }
  | .WithDefaultCallOptions cos => { o with callOptions := o.callOptions ++ cos }
  | .WithKeepaliveParams kp =>
    { o with KeepaliveParams :=
        if kp.Time < KeepaliveMinPingTime then { kp with Time := KeepaliveMinPingTime } else kp }

/-- The effect of one call option on `callInfo`. -/
def CallOption.before (c : callInfo) : CallOption → callInfo
  | .MaxCallRecvMsgSize bytes => { c with maxReceiveMessageSize := some bytes }
  | .MaxCallSendMsgSize bytes => { c with maxSendMessageSize := some bytes }

/-- The `dialOptions` before any option is applied (the fields modelled here
start at their zero values). -/
def defaultDialOptions : dialOptions :=
  { creds := none, callOptions := [], KeepaliveParams := ⟨0, 0, false⟩ }

/-- The `dialOptions` a channel ends up with for a list of dial options. -/
def resolve (opts : List DialOption) : dialOptions :=
  opts.foldl DialOption.apply defaultDialOptions

/-- The `callInfo` of a call made with the channel's default call options. -/
def defaultCallInfo (o : dialOptions) : callInfo :=
  o.callOptions.foldl CallOption.before ⟨none, none⟩

/-- A reference to a `grpc.ClientConn` (Go `*grpc.ClientConn`; nil is `none`
at the use sites). -/
abbrev ConnRef := Nat

/-- The state of a `grpc.ClientConn` that `Close` reads and writes: whether it
has been closed, and how many times its transport resources were released. -/
structure ClientConn where
  closed : Bool
  released : Nat
  deriving DecidableEq, Repr

/-- The connections in memory. -/
abbrev Heap := ConnRef → ClientConn

/-- grpc-go's `ErrClientConnClosing`. -/
def ErrClientConnClosing : GoError := ⟨"grpc: the client connection is closing"⟩

/-- grpc-go's `(*ClientConn).Close`: on a connection already closed it returns
`ErrClientConnClosing` and changes nothing; otherwise it marks the connection
closed and releases its resources. -/
def ClientConn.Close (h : Heap) (r : ConnRef) : Heap × Option GoError :=
  if (h r).closed then (h, some ErrClientConnClosing)
  else (Function.update h r { closed := true, released := (h r).released + 1 }, none)

/-- grpc-go's `errNoTransportSecurity`. -/
def errNoTransportSecurity : GoError :=
  ⟨"grpc: no transport security set"⟩

/-- The network as a dial could observe it: whether some process accepts
connections at an address. -/
abbrev Network := String → Bool

/-- grpc-go's `grpc.NewClient`.  It applies the options, parses the target
(`parseTarget` gives the library's error for a target it cannot parse), checks
that transport credentials were given, and returns the new channel in idle
state.  It performs no I/O: the network is not consulted, and a connection is
first attempted by a later call or an explicit `Connect`.  `fresh` is the
reference of the new connection. -/
def NewClient (parseTarget : String → Option GoError) (fresh : ConnRef) (_net : Network)
    (target : String) (opts : List DialOption) : Option ConnRef × Option GoError :=
  match parseTarget target with
  | some err => (none, some err)
  | none =>
    if (resolve opts).creds = none then (none, some errNoTransportSecurity)
    else (some fresh, none)

end grpc

namespace rag

/-- The Go struct `Client`; `Svc` is the type of the generated stub
`pb.RagServiceClient`. -/
structure Client (Svc : Type) where
  Service : Svc
  conn : Option grpc.ConnRef
  deriving DecidableEq

/-- The options of the `grpc.NewClient` call in `NewClient`. -/
def NewClient.dialOptions : List grpc.DialOption :=
  [ .WithTransportCredentials .insecure,
    .WithDefaultCallOptions
      [ .MaxCallRecvMsgSize (50 * 1024 * 1024),
        .MaxCallSendMsgSize (50 * 1024 * 1024) ],
    .WithKeepaliveParams
      { Time := 10 * time.Second
        Timeout := 3 * time.Second
        PermitWithoutStream := true } ]

/-- Go `NewClient`.  The dial step `grpc.NewClient` and the generated stub
constructor `pb.NewRagServiceClient` are parameters. -/
def NewClient {Svc : Type} (NewRagServiceClient : Option grpc.ConnRef → Svc)
    (dial : String → List grpc.DialOption → Option grpc.ConnRef × Option GoError)
    (addr : String) : Option (Client Svc) × Option GoError :=
  match dial addr NewClient.dialOptions with
  | (_, some err) => (none, some err)
  | (conn, none) => (some { Service := NewRagServiceClient conn, conn := conn }, none)

/-- A Go run-time panic. -/
inductive Panic where
  | nilDereference
  deriving DecidableEq, Repr

/-- Go `(*Client).Close` on the memory holding the client and the connections.
Reading `c.conn` through a nil receiver panics; the result of `c.conn.Close()`
is discarded and the client is not written. -/
def Client.Close {Svc : Type} (c : Option (Client Svc)) (h : grpc.Heap) :
    Except Panic (Option (Client Svc) × grpc.Heap) :=
  match c with
  | none => .error .nilDereference
  | some cl =>
    match cl.conn with
    | some r => .ok (some cl, (grpc.ClientConn.Close h r).1)
    | none => .ok (some cl, h)

end rag

/-- The environment in which exactly the listed variables are set; the first
entry for a name counts. -/
def Environ.ofList (kvs : List (String × String)) : Environ :=
  fun key => kvs.lookup key

open config

/-! ## Spec-side vocabulary -/

/-- The value of a string of decimal digits, read most significant digit
first from the accumulator `acc`. -/
def decimalValueFrom (acc : Nat) (ds : List Char) : Nat :=
  ds.foldl (fun a c => 10 * a + (c.toNat - 48)) acc

/-- The value of a string of decimal digits. -/
def decimalValue (ds : List Char) : Nat := decimalValueFrom 0 ds

/-- Whether every character is one of `0` .. `9`. -/
def allDigits (ds : List Char) : Prop := ∀ c ∈ ds, 48 ≤ c.toNat ∧ c.toNat ≤ 57

instance (ds : List Char) : Decidable (allDigits ds) := by
  unfold allDigits
  infer_instance

/-- A base-10 signed integer literal: an optional leading `+` or `-`, then one
or more decimal digits. -/
def IsIntLiteral (s : String) : Prop :=
  ∃ sign ds : List Char, (sign = [] ∨ sign = ['+'] ∨ sign = ['-']) ∧ ds ≠ [] ∧ allDigits ds ∧
    s.toList = sign ++ ds

/-- The integer a literal with the given sign and digits denotes. -/
def literalValue (sign ds : List Char) : Int :=
  if sign = ['-'] then -(decimalValue ds : Int) else (decimalValue ds : Int)

/-! ## Configuration resolver -/

theorem getEnv_unset (env : Environ) (key fallback : String) (h : env key = none) :
    getEnv env key fallback = fallback := by
  simp [getEnv, os.LookupEnv, h]

theorem getEnv_set (env : Environ) (key fallback v : String) (h : env key = some v) :
    getEnv env key fallback = v := by
  simp [getEnv, os.LookupEnv, h]

theorem getEnvAsInt64_unset (env : Environ) (key : String) (fallback : Int)
    (h : env key = none) : getEnvAsInt64 env key fallback = fallback := by
  simp [getEnvAsInt64, os.LookupEnv, h]

theorem getEnvAsInt64_set (env : Environ) (key v : String) (fallback : Int)
    (h : env key = some v) :
    getEnvAsInt64 env key fallback =
      if (strconv.ParseInt v).2 = none then (strconv.ParseInt v).1 else fallback := by
  simp only [getEnvAsInt64, os.LookupEnv, h]
  rcases hp : strconv.ParseInt v with ⟨n, _ | e⟩ <;> simp

/-- C1: with no variable set, `LoadConfig` returns port "8080", address
"localhost:50051" and size 10485760; and in every environment each unset
variable contributes its default whatever the other variables are. -/
theorem LoadConfig_defaults (env : Environ) :
    LoadConfig (fun _ => none) =
        { ApiServicePort := "8080", AIServiceAddr := "localhost:50051", MaxFileSize := 10485760 } ∧
      (10485760 : Int) = 10 * 1024 * 1024 ∧
      (env "API_SERVICE_PORT" = none → (LoadConfig env).ApiServicePort = "8080") ∧
      (env "AI_SERVICE_HOST" = none →
        (LoadConfig env).AIServiceAddr =
          "localhost" ++ ":" ++ (env "AI_SERVICE_PORT").getD "50051") ∧
      (env "AI_SERVICE_PORT" = none →
        (LoadConfig env).AIServiceAddr =
          (env "AI_SERVICE_HOST").getD "localhost" ++ ":" ++ "50051") ∧
      (env "MAX_FILE_SIZE" = none → (LoadConfig env).MaxFileSize = 10485760) := by
  refine ⟨by decide, by norm_num, ?_, ?_, ?_, ?_⟩
  · intro h
    simp [LoadConfig, getEnv_unset env _ _ h]
  · intro h
    cases hp : env "AI_SERVICE_PORT" with
    | none => simp [LoadConfig, getAIServiceAddr, getEnv_unset env _ _ h, getEnv_unset env _ _ hp]
    | some p =>
      simp [LoadConfig, getAIServiceAddr, getEnv_unset env _ _ h, getEnv_set env _ _ p hp]
  · intro h
    cases hh : env "AI_SERVICE_HOST" with
    | none => simp [LoadConfig, getAIServiceAddr, getEnv_unset env _ _ h, getEnv_unset env _ _ hh]
    | some p =>
      simp [LoadConfig, getAIServiceAddr, getEnv_unset env _ _ h, getEnv_set env _ _ p hh]
  · intro h
    simp [LoadConfig, getEnvAsInt64_unset env _ _ h]

/-- Witness of C1: only the backend host is set; the other three fields take
their defaults. -/
theorem LoadConfig_defaults_witness :
    (LoadConfig (Environ.ofList [("AI_SERVICE_HOST", "backend.internal")])).ApiServicePort = "8080" ∧
      (LoadConfig (Environ.ofList [("AI_SERVICE_HOST", "backend.internal")])).AIServiceAddr =
        "backend.internal:50051" ∧
      (LoadConfig (Environ.ofList [("AI_SERVICE_HOST", "backend.internal")])).MaxFileSize =
        10485760 :=
  have h := LoadConfig_defaults (Environ.ofList [("AI_SERVICE_HOST", "backend.internal")])
  ⟨h.2.2.1 (by decide), (h.2.2.2.2.1 (by decide)).trans (by decide), h.2.2.2.2.2 (by decide)⟩

/-- C3: when both the backend host `h` and the backend port `p` are set, the
address is `h`, a colon, `p`, whatever the other variables are. -/
theorem AIServiceAddr_of_host_port (env : Environ) (h p : String)
    (hh : env "AI_SERVICE_HOST" = some h) (hp : env "AI_SERVICE_PORT" = some p) :
    (LoadConfig env).AIServiceAddr = h ++ ":" ++ p := by
  simp [LoadConfig, getAIServiceAddr, getEnv_set env _ _ h hh, getEnv_set env _ _ p hp]

/-- Witness of C3: host `backend.internal` and port `9000` give
"backend.internal:9000". -/
theorem AIServiceAddr_of_host_port_witness :
    (LoadConfig (Environ.ofList
      [("AI_SERVICE_HOST", "backend.internal"), ("AI_SERVICE_PORT", "9000"),
       ("MAX_FILE_SIZE", "1")])).AIServiceAddr = "backend.internal:9000" :=
  (AIServiceAddr_of_host_port _ "backend.internal" "9000" (by decide) (by decide)).trans
    (by decide)

/-! ## `strconv.ParseInt` on decimal literals -/

theorem decimalValueFrom_cons (acc : Nat) (c : Char) (cs : List Char) :
    decimalValueFrom acc (c :: cs) = decimalValueFrom (10 * acc + (c.toNat - 48)) cs := rfl

theorem le_decimalValueFrom (ds : List Char) (acc : Nat) : acc ≤ decimalValueFrom acc ds := by
  induction ds generalizing acc with
  | nil => exact Nat.le_refl _
  | cons c cs ih =>
    rw [decimalValueFrom_cons]
    exact Nat.le_trans (by omega) (ih _)

theorem digitOf_of_digit (c : Nat) (h : 48 ≤ c ∧ c ≤ 57) :
    strconv.digitOf c = some (c - 48) := by
  simp [strconv.digitOf, h]

theorem digit_of_digitOf (c d : Nat) (h : strconv.digitOf c = some d) (hd : d < 10) :
    48 ≤ c ∧ c ≤ 57 := by
  unfold strconv.digitOf at h
  split_ifs at h with h1 h2
  · exact h1
  · simp only [Option.some.injEq] at h
    omega

/-- On decimal digits the loop of `ParseUint` computes the value of the
digits, or reports a range error when that value does not fit 64 bits. -/
theorem parseUintLoop_digits (ds : List Char) (hd : allDigits ds) (n : Nat) (hn : n < 2 ^ 64) :
    strconv.parseUintLoop ds n =
      if decimalValueFrom n ds < 2 ^ 64 then (decimalValueFrom n ds, none)
      else (strconv.maxUint64, some .ErrRange) := by
  induction ds generalizing n with
  | nil =>
    have hn2 : decimalValueFrom n [] < 2 ^ 64 := hn
    rw [if_pos hn2]
    rfl
  | cons c cs ih =>
    have hc : 48 ≤ c.toNat ∧ c.toNat ≤ 57 := hd c (List.mem_cons_self _ _)
    have hcs : allDigits cs := fun x hx => hd x (List.mem_cons_of_mem _ hx)
    have hge := le_decimalValueFrom cs (10 * n + (c.toNat - 48))
    rw [decimalValueFrom_cons]
    simp only [strconv.parseUintLoop, digitOf_of_digit _ hc, strconv.maxUint64]
    norm_num at hn hge ⊢
    have hd10 : ¬ (10 ≤ c.toNat - 48) := by omega
    rw [if_neg hd10]
    by_cases hcut : 1844674407370955162 ≤ n
    · rw [if_pos hcut, if_neg (by omega)]
    · rw [if_neg hcut]
      have h10 : n * 10 % 18446744073709551616 = n * 10 := Nat.mod_eq_of_lt (by omega)
      rw [h10]
      by_cases hfit : n * 10 + (c.toNat - 48) < 18446744073709551616
      · rw [Nat.mod_eq_of_lt hfit, if_neg (by omega)]
        have := ih hcs (n * 10 + (c.toNat - 48)) (by norm_num; exact hfit)
        norm_num [strconv.maxUint64] at this
        rw [this, Nat.mul_comm 10 n]
      · have hw : (n * 10 + (c.toNat - 48)) % 18446744073709551616 =
            n * 10 + (c.toNat - 48) - 18446744073709551616 := by omega
        rw [hw, if_pos (by omega), if_neg (by omega)]

theorem parseUintLoop_range (cs : List Char) (n v : Nat)
    (h : strconv.parseUintLoop cs n = (v, some .ErrRange)) : v = strconv.maxUint64 := by
  induction cs generalizing n with
  | nil => simp [strconv.parseUintLoop] at h
  | cons c cs ih =>
    unfold strconv.parseUintLoop at h
    split at h
    · simp at h
    · split_ifs at h with h1 h2
      · simp at h
      · simp at h; exact h.symm
      · simp only [] at h
        split_ifs at h with h3
        · simp at h; exact h.symm
        · exact ih _ h

theorem parseUintLoop_ok (cs : List Char) (n v : Nat)
    (h : strconv.parseUintLoop cs n = (v, none)) : allDigits cs := by
  induction cs generalizing n with
  | nil => intro c hc; simp at hc
  | cons c cs ih =>
    unfold strconv.parseUintLoop at h
    split at h
    · simp at h
    · rename_i d hdig
      split_ifs at h with h1 h2
      · simp at h
      · simp at h
      · simp only [] at h
        split_ifs at h with h3
        · simp at h
        · intro x hx
          rcases List.mem_cons.mp hx with rfl | hx
          · exact digit_of_digitOf _ d hdig (by omega)
          · exact ih _ h x hx

theorem ParseUint_digits (ds : List Char) (hne : ds ≠ []) (hd : allDigits ds) :
    strconv.ParseUint ds =
      if decimalValue ds < 2 ^ 64 then (decimalValue ds, none)
      else (strconv.maxUint64, some .ErrRange) := by
  cases ds with
  | nil => exact absurd rfl hne
  | cons c cs =>
    simp only [strconv.ParseUint]
    exact parseUintLoop_digits _ hd 0 (by norm_num)

theorem ParseUint_range (cs : List Char) (v : Nat)
    (h : strconv.ParseUint cs = (v, some .ErrRange)) : v = strconv.maxUint64 := by
  cases cs with
  | nil => simp [strconv.ParseUint] at h
  | cons c cs => exact parseUintLoop_range _ 0 v h

theorem ParseUint_ok (cs : List Char) (v : Nat)
    (h : strconv.ParseUint cs = (v, none)) : cs ≠ [] ∧ allDigits cs := by
  cases cs with
  | nil => simp [strconv.ParseUint] at h
  | cons c cs => exact ⟨by simp, parseUintLoop_ok _ 0 v h⟩

theorem ParseInt_of_rest (s : String) (c : Char) (cs rest : List Char) (neg : Bool)
    (hs : s.toList = c :: cs) (hneg : (c == '-') = neg)
    (hrest : (if c == '+' then cs else if c == '-' then cs else c :: cs) = rest)
    (hne : rest ≠ []) (hd : allDigits rest) :
    strconv.ParseInt s =
      if neg then
        (if decimalValue rest ≤ 2 ^ 63 then (-(decimalValue rest : Int), none)
         else (-(2 ^ 63), some .ErrRange))
      else
        (if decimalValue rest < 2 ^ 63 then ((decimalValue rest : Int), none)
         else (2 ^ 63 - 1, some .ErrRange)) := by
  simp only [strconv.ParseInt, hs]
  rw [hrest, hneg, ParseUint_digits rest hne hd]
  generalize decimalValue rest = v
  have e63 : (2 : Nat) ^ 63 = 9223372036854775808 := by norm_num
  have e64 : (2 : Nat) ^ 64 = 18446744073709551616 := by norm_num
  have i63 : (2 : Int) ^ 63 = 9223372036854775808 := by norm_num
  have i64 : (2 : Int) ^ 64 = 18446744073709551616 := by norm_num
  simp only [e63, e64, i63, i64, strconv.maxUint64, strconv.toInt64, strconv.negInt64]
  by_cases h64 : v < 18446744073709551616
  · rw [if_pos h64]
    simp only [Nat.mod_eq_of_lt h64]
    cases neg with
    | true =>
      simp only [Bool.not_true, Bool.false_and, Bool.true_and, if_true, Bool.false_eq_true,
        if_false, decide_eq_true_eq]
      by_cases h63 : v ≤ 9223372036854775808
      · rw [if_neg (by omega), if_pos h63]
        by_cases hlt : v < 9223372036854775808
        · rw [if_pos hlt, if_neg (by omega)]
        · have hv : v = 9223372036854775808 := by omega
          subst hv
          norm_num
      · rw [if_pos (by omega), if_neg h63]
    | false =>
      simp only [Bool.not_false, Bool.true_and, Bool.false_and, Bool.false_eq_true,
        if_false, decide_eq_true_eq]
      by_cases h63 : v < 9223372036854775808
      · rw [if_neg (by omega), if_pos h63, if_pos h63]
      · rw [if_pos (by omega), if_neg h63]
  · rw [if_neg h64]
    cases neg with
    | true =>
      simp only [Bool.not_true, Bool.false_and, Bool.true_and, if_true, Bool.false_eq_true,
        if_false, decide_eq_true_eq]
      rw [if_pos (by norm_num), if_neg (by omega)]
    | false =>
      simp only [Bool.not_false, Bool.true_and, Bool.false_and, Bool.false_eq_true,
        if_false, decide_eq_true_eq]
      rw [if_pos (by norm_num), if_neg (by omega)]

theorem not_sign_of_digit (c : Char) (h : 48 ≤ c.toNat ∧ c.toNat ≤ 57) :
    (c == '+') = false ∧ (c == '-') = false := by
  constructor
  · rw [beq_eq_false_iff_ne]
    rintro rfl
    revert h
    decide
  · rw [beq_eq_false_iff_ne]
    rintro rfl
    revert h
    decide

/-- On a literal, `ParseInt` returns the denoted integer when it lies in the
signed 64-bit range and a range error otherwise. -/
theorem ParseInt_literal (s : String) (sign ds : List Char)
    (hsign : sign = [] ∨ sign = ['+'] ∨ sign = ['-']) (hne : ds ≠ []) (hd : allDigits ds)
    (hs : s.toList = sign ++ ds) :
    strconv.ParseInt s =
      if -(2 ^ 63) ≤ literalValue sign ds ∧ literalValue sign ds < 2 ^ 63 then
        (literalValue sign ds, none)
      else (if sign = ['-'] then -(2 ^ 63) else 2 ^ 63 - 1, some .ErrRange) := by
  rcases hsign with rfl | rfl | rfl
  · cases ds with
    | nil => exact absurd rfl hne
    | cons c cs =>
      have hc := not_sign_of_digit c (hd c (List.mem_cons_self _ _))
      rw [ParseInt_of_rest s c cs (c :: cs) false hs hc.2 (by simp [hc.1, hc.2]) hne hd]
      simp only [literalValue, Bool.false_eq_true, if_false, List.nil_eq, reduceCtorEq]
      by_cases h : decimalValue (c :: cs) < 2 ^ 63
      · rw [if_pos h, if_pos]
        constructor
        · have : (0 : Int) ≤ (decimalValue (c :: cs) : Int) := Int.ofNat_nonneg _
          omega
        · exact_mod_cast h
      · rw [if_neg h, if_neg]
        rintro ⟨_, h2⟩
        exact h (by exact_mod_cast h2)
  · rw [ParseInt_of_rest s '+' ds ds false hs (by decide) (by simp) hne hd]
    have hsg : ¬ (['+'] = ['-']) := by decide
    simp only [literalValue, Bool.false_eq_true, if_false, hsg]
    by_cases h : decimalValue ds < 2 ^ 63
    · rw [if_pos h, if_pos]
      constructor
      · have : (0 : Int) ≤ (decimalValue ds : Int) := Int.ofNat_nonneg _
        omega
      · exact_mod_cast h
    · rw [if_neg h, if_neg]
      rintro ⟨_, h2⟩
      exact h (by exact_mod_cast h2)
  · rw [ParseInt_of_rest s '-' ds ds true hs (by decide) (by simp) hne hd]
    simp only [literalValue, if_true]
    by_cases h : decimalValue ds ≤ 2 ^ 63
    · rw [if_pos h, if_pos]
      constructor
      · have : (decimalValue ds : Int) ≤ 2 ^ 63 := by exact_mod_cast h
        omega
      · have : (0 : Int) ≤ (decimalValue ds : Int) := Int.ofNat_nonneg _
        omega
    · rw [if_neg h, if_neg]
      rintro ⟨h1, _⟩
      apply h
      have : (decimalValue ds : Int) ≤ 2 ^ 63 := by omega
      exact_mod_cast this

/-- Every string `ParseInt` accepts is a literal. -/
theorem isIntLiteral_of_ParseInt (s : String) (h : (strconv.ParseInt s).2 = none) :
    IsIntLiteral s := by
  cases hs : s.toList with
  | nil =>
    simp only [strconv.ParseInt, hs] at h
    exact absurd h (by simp)
  | cons c cs =>
    simp only [strconv.ParseInt, hs] at h
    generalize hrest : (if c == '+' then cs else if c == '-' then cs else c :: cs) = rest at h
    rcases hpu : strconv.ParseUint rest with ⟨un, _ | e⟩
    · obtain ⟨hne, hd⟩ := ParseUint_ok rest un hpu
      by_cases hp : c = '+'
      · subst hp
        simp only [beq_self_eq_true, if_true] at hrest
        subst hrest
        exact ⟨['+'], cs, Or.inr (Or.inl rfl), hne, hd, hs⟩
      · by_cases hm : c = '-'
        · subst hm
          have : (('-' : Char) == '+') = false := by decide
          simp only [this, Bool.false_eq_true, if_false, beq_self_eq_true, if_true] at hrest
          subst hrest
          exact ⟨['-'], cs, Or.inr (Or.inr rfl), hne, hd, hs⟩
        · have h1 : (c == '+') = false := beq_eq_false_iff_ne.mpr hp
          have h2 : (c == '-') = false := beq_eq_false_iff_ne.mpr hm
          simp only [h1, h2, Bool.false_eq_true, if_false] at hrest
          subst hrest
          exact ⟨[], c :: cs, Or.inl rfl, hne, hd, hs⟩
    · cases e with
      | ErrSyntax => simp [hpu] at h
      | ErrRange =>
        have hun := ParseUint_range rest un hpu
        subst hun
        rw [hpu] at h
        cases hneg : (c == '-') <;> simp [hneg, strconv.maxUint64] at h

/-- C2: when the payload-size variable is set to a string that `ParseInt`
rejects, or that is not a base-10 integer literal at all, `LoadConfig` (a total
function, so there is no error path) gives the default size 10485760, whatever
the other variables are. -/
theorem MaxFileSize_unparsable (env : Environ) (s : String)
    (hset : env "MAX_FILE_SIZE" = some s)
    (hbad : (strconv.ParseInt s).2 ≠ none ∨ ¬ IsIntLiteral s) :
    (LoadConfig env).MaxFileSize = 10485760 := by
  have hne : (strconv.ParseInt s).2 ≠ none := by
    rcases hbad with h | h
    · exact h
    · exact fun hp => h (isIntLiteral_of_ParseInt s hp)
  simp only [LoadConfig, getEnvAsInt64_set env _ s _ hset, if_neg hne]
  norm_num

/-- Witness of C2: the values "notanumber", "", "12abc" and "1.5" all give the
default size. -/
theorem MaxFileSize_unparsable_witness :
    (LoadConfig (Environ.ofList [("MAX_FILE_SIZE", "notanumber")])).MaxFileSize = 10485760 ∧
      (LoadConfig (Environ.ofList [("MAX_FILE_SIZE", "")])).MaxFileSize = 10485760 ∧
      (LoadConfig (Environ.ofList
        [("MAX_FILE_SIZE", "12abc"), ("API_SERVICE_PORT", "9")])).MaxFileSize = 10485760 ∧
      (LoadConfig (Environ.ofList [("MAX_FILE_SIZE", "1.5")])).MaxFileSize = 10485760 :=
  ⟨MaxFileSize_unparsable _ "notanumber" (by decide) (Or.inl (by decide)),
   MaxFileSize_unparsable _ "" (by decide) (Or.inl (by decide)),
   MaxFileSize_unparsable _ "12abc" (by decide) (Or.inl (by decide)),
   MaxFileSize_unparsable _ "1.5" (by decide) (Or.inl (by decide))⟩

/-- C10: when the payload-size variable is set to a base-10 signed integer
literal denoting `n`, the resolved size is exactly `n` if `n` lies in the signed
64-bit range (zero and negative values included), and the default 10485760 if
it does not. -/
theorem MaxFileSize_of_literal (env : Environ) (s : String) (sign ds : List Char)
    (hsign : sign = [] ∨ sign = ['+'] ∨ sign = ['-']) (hne : ds ≠ []) (hd : allDigits ds)
    (hs : s.toList = sign ++ ds) (hset : env "MAX_FILE_SIZE" = some s) :
    (LoadConfig env).MaxFileSize =
      if -(2 ^ 63) ≤ literalValue sign ds ∧ literalValue sign ds < 2 ^ 63 then
        literalValue sign ds
      else 10485760 := by
  simp only [LoadConfig, getEnvAsInt64_set env _ s _ hset,
    ParseInt_literal s sign ds hsign hne hd hs]
  split_ifs <;> simp_all

/-- Witness of C10: the literals "0", "-5", "+0012", the two ends of the signed
64-bit range, and the first value past its upper end. -/
theorem MaxFileSize_of_literal_witness :
    (LoadConfig (Environ.ofList [("MAX_FILE_SIZE", "0")])).MaxFileSize = 0 ∧
      (LoadConfig (Environ.ofList [("MAX_FILE_SIZE", "-5")])).MaxFileSize = -5 ∧
      (LoadConfig (Environ.ofList [("MAX_FILE_SIZE", "+0012")])).MaxFileSize = 12 ∧
      (LoadConfig (Environ.ofList [("MAX_FILE_SIZE", "9223372036854775807")])).MaxFileSize =
        9223372036854775807 ∧
      (LoadConfig (Environ.ofList [("MAX_FILE_SIZE", "-9223372036854775808")])).MaxFileSize =
        -9223372036854775808 ∧
      (LoadConfig (Environ.ofList [("MAX_FILE_SIZE", "9223372036854775808")])).MaxFileSize =
        10485760 :=
  ⟨(MaxFileSize_of_literal _ "0" [] ['0'] (by decide) (by decide) (by decide) (by decide)
      (by decide)).trans (by decide),
   (MaxFileSize_of_literal _ "-5" ['-'] ['5'] (by decide) (by decide) (by decide) (by decide)
      (by decide)).trans (by decide),
   (MaxFileSize_of_literal _ "+0012" ['+'] "0012".toList (by decide) (by decide) (by decide)
      (by decide) (by decide)).trans (by decide),
   (MaxFileSize_of_literal _ "9223372036854775807" [] "9223372036854775807".toList (by decide)
      (by decide) (by decide) (by decide) (by decide)).trans (by decide),
   (MaxFileSize_of_literal _ "-9223372036854775808" ['-'] "9223372036854775808".toList
      (by decide) (by decide) (by decide) (by decide) (by decide)).trans (by decide),
   (MaxFileSize_of_literal _ "9223372036854775808" [] "9223372036854775808".toList (by decide)
      (by decide) (by decide) (by decide) (by decide)).trans (by decide)⟩

/-- Counterexample to C4: with the listen port, backend host and backend port
all set to the empty string, the listen port is empty and the address is the
bare colon, which has no non-empty host and port parts. -/
theorem LoadConfig_empty_fields :
    (LoadConfig (Environ.ofList
      [("API_SERVICE_PORT", ""), ("AI_SERVICE_HOST", ""), ("AI_SERVICE_PORT", "")])).ApiServicePort
        = "" ∧
      ¬ ∃ h p : String, h ≠ "" ∧ p ≠ "" ∧
        (LoadConfig (Environ.ofList
          [("API_SERVICE_PORT", ""), ("AI_SERVICE_HOST", ""),
           ("AI_SERVICE_PORT", "")])).AIServiceAddr = h ++ ":" ++ p := by
  refine ⟨by decide, ?_⟩
  rintro ⟨h, p, hh, -, heq⟩
  have haddr : (LoadConfig (Environ.ofList
      [("API_SERVICE_PORT", ""), ("AI_SERVICE_HOST", ""),
       ("AI_SERVICE_PORT", "")])).AIServiceAddr = ":" := by decide
  rw [haddr] at heq
  have hlen := congrArg String.length heq
  simp only [String.length_append] at hlen
  have h1 : (":" : String).length = 1 := by decide
  rw [h1] at hlen
  have h0 : h.length = 0 := by omega
  apply hh
  cases h with
  | mk data =>
    have : data = [] := List.length_eq_zero.mp h0
    subst this
    rfl

/-- C4 (amended): in every environment each field is the value of its
variable or the default; the listen port is non-empty unless its variable is
set to the empty string, the host and port parts of the address are non-empty
unless their own variables are set to the empty string, and the size is
either the default or the integer parsed from its variable. -/
theorem LoadConfig_populated (env : Environ) :
    (LoadConfig env).ApiServicePort = (env "API_SERVICE_PORT").getD "8080" ∧
      (LoadConfig env).AIServiceAddr =
        (env "AI_SERVICE_HOST").getD "localhost" ++ ":" ++ (env "AI_SERVICE_PORT").getD "50051" ∧
      (env "API_SERVICE_PORT" ≠ some "" → (LoadConfig env).ApiServicePort ≠ "") ∧
      (env "AI_SERVICE_HOST" ≠ some "" → (env "AI_SERVICE_HOST").getD "localhost" ≠ "") ∧
      (env "AI_SERVICE_PORT" ≠ some "" → (env "AI_SERVICE_PORT").getD "50051" ≠ "") ∧
      ((LoadConfig env).MaxFileSize = 10485760 ∨
        ∃ s, env "MAX_FILE_SIZE" = some s ∧
          strconv.ParseInt s = ((LoadConfig env).MaxFileSize, none)) := by
  have hget : ∀ key fallback, getEnv env key fallback = (env key).getD fallback := by
    intro key fallback
    cases hk : env key with
    | none => simp [getEnv_unset env _ _ hk]
    | some v => simp [getEnv_set env _ _ v hk]
  have hnonempty : ∀ key fallback, fallback ≠ "" → env key ≠ some "" →
      (env key).getD fallback ≠ "" := by
    intro key fallback hf hk
    cases hv : env key with
    | none => simpa using hf
    | some v =>
      simp only [Option.getD_some]
      rintro rfl
      exact hk hv
  refine ⟨hget _ _, ?_, ?_, hnonempty _ _ (by decide), hnonempty _ _ (by decide), ?_⟩
  · simp [LoadConfig, getAIServiceAddr, hget]
  · intro h
    have : (LoadConfig env).ApiServicePort = (env "API_SERVICE_PORT").getD "8080" := hget _ _
    rw [this]
    exact hnonempty _ _ (by decide) h
  · cases hm : env "MAX_FILE_SIZE" with
    | none =>
      left
      simp [LoadConfig, getEnvAsInt64_unset env _ _ hm]
    | some s =>
      simp only [LoadConfig, getEnvAsInt64_set env _ s _ hm]
      rcases hp : strconv.ParseInt s with ⟨n, _ | e⟩
      · right
        exact ⟨s, rfl, by simp [hp]⟩
      · left
        simp

/-- Witness of C4 (amended): with only the listen port set to the empty
string, the host and port parts of the address are still non-empty. -/
theorem LoadConfig_populated_witness :
    (LoadConfig (Environ.ofList [("API_SERVICE_PORT", "")])).AIServiceAddr =
        "localhost" ++ ":" ++ "50051" ∧
      (Environ.ofList [("API_SERVICE_PORT", "")] "AI_SERVICE_HOST").getD "localhost" ≠ "" ∧
      (Environ.ofList [("API_SERVICE_PORT", "")] "AI_SERVICE_PORT").getD "50051" ≠ "" :=
  have h := LoadConfig_populated (Environ.ofList [("API_SERVICE_PORT", "")])
  ⟨h.2.1, h.2.2.2.1 (by decide), h.2.2.2.2.1 (by decide)⟩

/-! ## Backend channel manager -/

/-- C5: for every address and every dial step, `NewClient` is the dial step
called with that address and one fixed option list, followed by the error
test: the list is insecure transport credentials given explicitly, receive
and send ceilings of 52428800 = 50 * 1024 * 1024 bytes, keepalive interval
10 s, keepalive timeout 3 s, probing permitted without streams, and the
resolved channel settings carry exactly these values.  `NewClient` has no
payload-size argument, so the configured `MaxFileSize` cannot enter. -/
theorem NewClient_dialOptions_fixed {Svc : Type} (stub : Option grpc.ConnRef → Svc)
    (dial : String → List grpc.DialOption → Option grpc.ConnRef × Option GoError)
    (addr : String) :
    rag.NewClient stub dial addr =
        (match dial addr
          [ .WithTransportCredentials .insecure,
            .WithDefaultCallOptions [.MaxCallRecvMsgSize 52428800, .MaxCallSendMsgSize 52428800],
            .WithKeepaliveParams ⟨10000000000, 3000000000, true⟩ ] with
        | (_, some err) => (none, some err)
        | (conn, none) => (some { Service := stub conn, conn := conn }, none)) ∧
      rag.NewClient.dialOptions =
        [ .WithTransportCredentials .insecure,
          .WithDefaultCallOptions [.MaxCallRecvMsgSize 52428800, .MaxCallSendMsgSize 52428800],
          .WithKeepaliveParams ⟨10000000000, 3000000000, true⟩ ] ∧
      (52428800 : Int) = 50 * 1024 * 1024 ∧
      (10000000000 : Int) = 10 * time.Second ∧ (3000000000 : Int) = 3 * time.Second ∧
      (grpc.resolve rag.NewClient.dialOptions).creds = some .insecure ∧
      (grpc.resolve rag.NewClient.dialOptions).KeepaliveParams =
        ⟨10000000000, 3000000000, true⟩ ∧
      grpc.defaultCallInfo (grpc.resolve rag.NewClient.dialOptions) =
        ⟨some 52428800, some 52428800⟩ := by
  have hopts : rag.NewClient.dialOptions =
      [ .WithTransportCredentials .insecure,
        .WithDefaultCallOptions [.MaxCallRecvMsgSize 52428800, .MaxCallSendMsgSize 52428800],
        .WithKeepaliveParams ⟨10000000000, 3000000000, true⟩ ] := by decide
  refine ⟨?_, hopts, by norm_num, by decide, by decide, by decide, by decide, by decide⟩
  simp only [rag.NewClient, hopts]

/-- Counterexample to C6: with the payload-size variable set to 104857600
(100 MiB) the resolved size is not below the transport ceilings. -/
theorem transport_ceiling_not_larger :
    grpc.defaultCallInfo (grpc.resolve rag.NewClient.dialOptions) =
        ⟨some 52428800, some 52428800⟩ ∧
      ¬ (LoadConfig (Environ.ofList [("MAX_FILE_SIZE", "104857600")])).MaxFileSize < 52428800 := by
  decide

/-- C6 (amended): in every environment both transport ceilings are the fixed
52428800 bytes, and this is strictly larger than the resolved payload size
exactly when the size variable is unset, is rejected by `ParseInt`, or parses
to a value below 52428800. -/
theorem transport_ceiling_vs_MaxFileSize (env : Environ) :
    grpc.defaultCallInfo (grpc.resolve rag.NewClient.dialOptions) =
        ⟨some 52428800, some 52428800⟩ ∧
      ((LoadConfig env).MaxFileSize < 52428800 ↔
        (env "MAX_FILE_SIZE" = none ∨
          ∃ s, env "MAX_FILE_SIZE" = some s ∧
            ((strconv.ParseInt s).2 ≠ none ∨ (strconv.ParseInt s).1 < 52428800))) := by
  refine ⟨by decide, ?_⟩
  cases hm : env "MAX_FILE_SIZE" with
  | none => simp [LoadConfig, getEnvAsInt64_unset env _ _ hm]
  | some s =>
    simp only [LoadConfig, getEnvAsInt64_set env _ s _ hm]
    by_cases hp : (strconv.ParseInt s).2 = none
    · simp [hp]
    · simp [hp]

/-- C7: `NewClient` has no partial result.  When the dial step reports an error
`e` it returns no client and exactly `e`; when the dial step succeeds with
connection `c` it returns no error and the client whose `conn` is `c` and whose
`Service` is the stub built over `c`; and it returns a client exactly when it
returns no error. -/
theorem NewClient_all_or_nothing {Svc : Type} (stub : Option grpc.ConnRef → Svc)
    (dial : String → List grpc.DialOption → Option grpc.ConnRef × Option GoError)
    (addr : String) :
    (∀ c e, dial addr rag.NewClient.dialOptions = (c, some e) →
        rag.NewClient stub dial addr = (none, some e)) ∧
      (∀ c, dial addr rag.NewClient.dialOptions = (c, none) →
        rag.NewClient stub dial addr = (some { Service := stub c, conn := c }, none)) ∧
      ((rag.NewClient stub dial addr).1.isSome = true ↔ (rag.NewClient stub dial addr).2 = none) := by
  refine ⟨?_, ?_, ?_⟩
  · intro c e h
    simp [rag.NewClient, h]
  · intro c h
    simp [rag.NewClient, h]
  · rcases h : dial addr rag.NewClient.dialOptions with ⟨c, _ | e⟩
    · simp [rag.NewClient, h]
    · simp [rag.NewClient, h]

/-- Witness of C7: a dial step that rejects the empty target and otherwise
yields connection 7. -/
theorem NewClient_all_or_nothing_witness :
    rag.NewClient (fun c => c)
        (fun a _ => if a = "" then (none, some ⟨"empty target"⟩) else (some 7, none)) "" =
        (none, some ⟨"empty target"⟩) ∧
      rag.NewClient (fun c => c)
        (fun a _ => if a = "" then (none, some ⟨"empty target"⟩) else (some 7, none))
        "localhost:50051" = (some { Service := some 7, conn := some 7 }, none) :=
  ⟨(NewClient_all_or_nothing (fun c => c)
      (fun a _ => if a = "" then (none, some ⟨"empty target"⟩) else (some 7, none)) "").1
      none ⟨"empty target"⟩ (by decide),
   (NewClient_all_or_nothing (fun c => c)
      (fun a _ => if a = "" then (none, some ⟨"empty target"⟩) else (some 7, none))
      "localhost:50051").2.1 (some 7) (by decide)⟩

theorem ClientConn_Close_closed (h : grpc.Heap) (r : grpc.ConnRef) :
    ((grpc.ClientConn.Close h r).1 r).closed = true := by
  unfold grpc.ClientConn.Close
  by_cases hc : (h r).closed = true
  · simp [hc]
  · simp [hc]

theorem ClientConn_Close_twice (h : grpc.Heap) (r : grpc.ConnRef) :
    (grpc.ClientConn.Close (grpc.ClientConn.Close h r).1 r).1 = (grpc.ClientConn.Close h r).1 := by
  have hc := ClientConn_Close_closed h r
  generalize (grpc.ClientConn.Close h r).1 = h1 at hc ⊢
  simp [grpc.ClientConn.Close, hc]

/-- C8: `Close` on a client never panics.  With a nil `conn` it changes
nothing; with an open connection it marks that connection closed and releases
it; and a second `Close` returns normally and leaves the client and every
connection as the first call left them, so an open connection is released
exactly once. -/
theorem Close_safe_idempotent {Svc : Type} (c : rag.Client Svc) (h : grpc.Heap) :
    (c.conn = none → rag.Client.Close (some c) h = .ok (some c, h)) ∧
      (∀ r, c.conn = some r → (h r).closed = false →
        rag.Client.Close (some c) h =
          .ok (some c, Function.update h r { closed := true, released := (h r).released + 1 })) ∧
      (∃ h1, rag.Client.Close (some c) h = .ok (some c, h1) ∧
        rag.Client.Close (some c) h1 = .ok (some c, h1) ∧
        ∀ r, c.conn = some r → (h r).closed = false →
          (h1 r).closed = true ∧ (h1 r).released = (h r).released + 1) := by
  refine ⟨?_, ?_, ?_⟩
  · intro hc
    simp [rag.Client.Close, hc]
  · intro r hc hopen
    simp [rag.Client.Close, hc, grpc.ClientConn.Close, hopen]
  · cases hc : c.conn with
    | none =>
      refine ⟨h, by simp [rag.Client.Close, hc], by simp [rag.Client.Close, hc], ?_⟩
      intro r hr
      simp at hr
    | some r =>
      refine ⟨(grpc.ClientConn.Close h r).1, by simp [rag.Client.Close, hc], ?_, ?_⟩
      · simp [rag.Client.Close, hc, ClientConn_Close_twice]
      · intro r2 hr hopen
        simp only [Option.some.injEq] at hr
        subst hr
        simp [grpc.ClientConn.Close, hopen]

/-- Witness of C8: a client over the open, never released connection 3. -/
theorem Close_safe_idempotent_witness :
    rag.Client.Close (some ({ Service := (), conn := some 3 } : rag.Client Unit))
        (fun _ => { closed := false, released := 0 }) =
      .ok (some { Service := (), conn := some 3 },
        Function.update (fun _ => { closed := false, released := 0 }) 3
          { closed := true, released := 0 + 1 }) :=
  (Close_safe_idempotent ({ Service := (), conn := some 3 } : rag.Client Unit)
    (fun _ => { closed := false, released := 0 })).2.1 3 rfl rfl

/-- C9 (what the code does): `NewClient` over grpc-go's `grpc.NewClient`
returns an error exactly when the target does not parse, and otherwise a
client over the new connection, whatever the network is; in particular with
no listener anywhere it returns a client for "localhost:50051" and no error.
No connection attempt is validated before the client is returned. -/
theorem NewClient_no_listener_returns_client {Svc : Type} (stub : Option grpc.ConnRef → Svc)
    (parseTarget : String → Option GoError) (fresh : grpc.ConnRef) (net : grpc.Network)
    (addr : String) :
    rag.NewClient stub (grpc.NewClient parseTarget fresh net) addr =
        (match parseTarget addr with
        | some err => (none, some err)
        | none => (some { Service := stub (some fresh), conn := some fresh }, none)) ∧
      (fun _ => false : grpc.Network) "localhost:50051" = false ∧
      rag.NewClient (fun c => c)
        (grpc.NewClient (fun t => if t = "" then some ⟨"empty target"⟩ else none) 1
          (fun _ => false)) "localhost:50051" =
        (some { Service := some 1, conn := some 1 }, none) := by
  refine ⟨?_, rfl, by decide⟩
  have hcreds : (grpc.resolve rag.NewClient.dialOptions).creds ≠ none := by decide
  unfold rag.NewClient grpc.NewClient
  cases parseTarget addr with
  | some err => rfl
  | none => simp only [if_neg hcreds]
